import Mathlib

set_option maxRecDepth 10000

/-
Verification of the OS_DISK_READER filesystem-decoding engines.

The development shallowly embeds the two decoding engines (src/FAT32.py and
src/NTFS.py) over lists of byte values (`List Nat`, every element intended to
be < 256).  Python strings are modelled as lists of Unicode code points
(`List Nat`); Python `None` becomes `Option.none`; the dynamically typed
"entry as tuple" values of the FAT32 engine become structures whose fields use
`Option`/`Int` where the source stores either a number or a sentinel value.
Unbounded `while` loops become fuel-indexed functions returning `Option`,
where `none` means the loop has not terminated within the given fuel.
-/

namespace DiskReader

/-- Models `raw_to_dec` (src/FAT32.py): `int.from_bytes(data, 'little')`. -/
def raw_to_dec (data : List Nat) : Nat :=
  data.foldr (fun b acc => b + 256 * acc) 0

/-- Models `read_offset` (src/FAT32.py): the Python slice
`buffer[offset:offset+size]` (clamped at the end of the buffer, as in Python). -/
def read_offset (buffer : List Nat) (offset size : Nat) : List Nat :=
  (buffer.drop offset).take size

/-- Models `read_dec_offset` (src/FAT32.py). -/
def read_dec_offset (buffer : List Nat) (offset size : Nat) : Nat :=
  raw_to_dec (read_offset buffer offset size)

/-- Models `read_sectors` (src/FAT32.py) over an in-memory disk image:
seek to `bytes_per_sector * start_sector` and read `bytes_per_sector *
num_sectors` bytes (short reads at the end of the image are possible, as with
Python's `file.read`). -/
def read_sectors (disk : List Nat) (startSector numSectors bytesPerSector : Nat) :
    List Nat :=
  (disk.drop (bytesPerSector * startSector)).take (bytesPerSector * numSectors)

/-- Models `read_list_sectors` (src/FAT32.py): read each sector in the list and
concatenate.  A negative sector index would make Python's `seek` raise, so the
result is `none` in that case. -/
def read_list_sectors (disk : List Nat) (sectors : List Int) (bytesPerSector : Nat) :
    Option (List Nat) :=
  if sectors.all (fun s => 0 ≤ s) then
    some (sectors.flatMap (fun s => read_sectors disk s.toNat 1 bytesPerSector))
  else
    none

/-! ### Text decoding helpers

Python `bytes.decode('utf-16le')` / `str` values are modelled at the level of
UTF-16 code units and Unicode code points. -/

/-- Pair up consecutive bytes little-endian into 16-bit units; a lone trailing
byte is dropped (as `errors='ignore'` does for a truncated code unit). -/
def utf16leUnits : List Nat → List Nat
  | b0 :: b1 :: rest => (b0 + 256 * b1) :: utf16leUnits rest
  | _ => []

def isHighSurrogate (u : Nat) : Bool := 0xD800 ≤ u ∧ u ≤ 0xDBFF

def isLowSurrogate (u : Nat) : Bool := 0xDC00 ≤ u ∧ u ≤ 0xDFFF

/-- Combine UTF-16 surrogate pairs into code points; an unpaired surrogate is
dropped, modelling `errors='ignore'`.  The fuel argument only drives the
structural recursion (each step consumes at least one unit, so fuel equal to
the list length, as supplied by `combineSurrogates`, is never exhausted). -/
def combineSurrogatesGo : Nat → List Nat → List Nat
  | 0, _ => []
  | _, [] => []
  | fuel + 1, u :: rest =>
    if isHighSurrogate u then
      match rest with
      | [] => []
      | l :: rest2 =>
        if isLowSurrogate l then
          (0x10000 + (u - 0xD800) * 0x400 + (l - 0xDC00)) ::
            combineSurrogatesGo fuel rest2
        else
          combineSurrogatesGo fuel (l :: rest2)
    else if isLowSurrogate u then combineSurrogatesGo fuel rest
    else u :: combineSurrogatesGo fuel rest

def combineSurrogates (units : List Nat) : List Nat :=
  combineSurrogatesGo units.length units

/-- Models `bytes.decode('utf-16le', errors='ignore')` as a list of code
points. -/
def decodeUtf16leIgnore (bs : List Nat) : List Nat :=
  combineSurrogates (utf16leUnits bs)

/-- Models `str.split('\x00', 1)[0]`: the prefix before the first NUL code
point. -/
def beforeFirstNul (s : List Nat) : List Nat :=
  s.takeWhile (fun c => c ≠ 0)

/-- Models `process_fat_lfn` (src/FAT32.py): for each buffered long-file-name
subentry, extract the three fixed byte ranges holding UTF-16 code units
(offsets 1/10, 0xE/12, 0x1C/4), concatenate over all subentries, decode as
UTF-16LE and cut at the first NUL. -/
def process_fat_lfn (entries : List (List Nat)) : List Nat :=
  let nameBytes :=
    entries.flatMap (fun e =>
      read_offset e 1 10 ++ read_offset e 0xE 12 ++ read_offset e 0x1C 4)
  beforeFirstNul (decodeUtf16leIgnore nameBytes)

/-! ### UTF-8 decoding (short names, NTFS data attribute)

Python `bytes.decode('utf-8', errors=...)` : a minimal faithful model.  Valid
sequences decode to their code point; an invalid byte is dropped
(`errors='ignore'`) or replaced by U+FFFD (`errors='replace'`). -/

def isCont (b : Nat) : Bool := 0x80 ≤ b ∧ b ≤ 0xBF

/-- One step of UTF-8 decoding: returns the decoded code point and the number
of bytes consumed, or `none` for an invalid leading sequence (one byte is then
skipped). -/
def utf8Step : List Nat → Option (Nat × Nat)
  | [] => none
  | b0 :: rest =>
    if b0 < 0x80 then some (b0, 1)
    else if 0xC2 ≤ b0 ∧ b0 ≤ 0xDF then
      match rest with
      | b1 :: _ =>
        if isCont b1 then some ((b0 - 0xC0) * 0x40 + (b1 - 0x80), 2) else none
      | _ => none
    else if 0xE0 ≤ b0 ∧ b0 ≤ 0xEF then
      match rest with
      | b1 :: b2 :: _ =>
        if isCont b1 ∧ isCont b2 then
          let cp := (b0 - 0xE0) * 0x1000 + (b1 - 0x80) * 0x40 + (b2 - 0x80)
          if 0x800 ≤ cp ∧ ¬ (0xD800 ≤ cp ∧ cp ≤ 0xDFFF) then some (cp, 3) else none
        else none
      | _ => none
    else if 0xF0 ≤ b0 ∧ b0 ≤ 0xF4 then
      match rest with
      | b1 :: b2 :: b3 :: _ =>
        if isCont b1 ∧ isCont b2 ∧ isCont b3 then
          let cp := (b0 - 0xF0) * 0x40000 + (b1 - 0x80) * 0x1000 +
            (b2 - 0x80) * 0x40 + (b3 - 0x80)
          if 0x10000 ≤ cp ∧ cp ≤ 0x10FFFF then some (cp, 4) else none
        else none
      | _ => none
    else none

/-- Decode UTF-8, handling an invalid byte by dropping it (`replacement =
none`) or by emitting the given replacement code point.  A successful
`utf8Step` consumes `n ≥ 1` bytes, so the continuation drops the head byte
plus `n - 1` further bytes; the fuel (list length at the top-level call) only
drives the structural recursion and is never exhausted. -/
def decodeUtf8Go (replacement : Option Nat) : Nat → List Nat → List Nat
  | 0, _ => []
  | _, [] => []
  | fuel + 1, b0 :: rest =>
    match utf8Step (b0 :: rest) with
    | some (cp, n) => cp :: decodeUtf8Go replacement fuel (rest.drop (n - 1))
    | none =>
      match replacement with
      | some r => r :: decodeUtf8Go replacement fuel rest
      | none => decodeUtf8Go replacement fuel rest

def decodeUtf8 (replacement : Option Nat) (bs : List Nat) : List Nat :=
  decodeUtf8Go replacement bs.length bs

/-- Models `str.strip()` restricted to the ASCII whitespace code points that
occur in 8.3 short names (space padding); `str.lower()` likewise is modelled on
the ASCII range, which covers 8.3 names. -/
def isSpaceCp (c : Nat) : Bool := c = 0x20 ∨ (9 ≤ c ∧ c ≤ 13)

def stripCp (s : List Nat) : List Nat :=
  ((s.dropWhile isSpaceCp).reverse.dropWhile isSpaceCp).reverse

def lowerCp (s : List Nat) : List Nat :=
  s.map (fun c => if 0x41 ≤ c ∧ c ≤ 0x5A then c + 0x20 else c)

/-! ### The FAT32 engine (class `FAT32`, src/FAT32.py) -/

/-- The state built by `FAT32.__init__`: the boot-sector geometry fields, the
in-memory copy of the first FAT table (`fat_data`), and the raw disk image the
object keeps reading from (`self.path` stands for this byte stream). -/
structure FAT32Volume where
  nBytesSector : Nat
  nSectorsCluster : Nat
  nSectorsBootsector : Nat
  nFatTables : Nat
  volumeSize : Nat
  nSectorsFatTable : Nat
  rdetClusterBegin : Nat
  subSector : Nat
  nSectorsStoreBootsector : Nat
  fatData : List Nat
  disk : List Nat
  deriving Repr, DecidableEq

/-- Models `FAT32.__init__`: decode the boot sector of the image and load the
first FAT table. -/
def FAT32.ofImage (disk : List Nat) : FAT32Volume :=
  let bootsector := read_sectors disk 0 1 512
  let nBytesSector := read_dec_offset bootsector 0x0B 2
  let nSectorsBootsector := read_dec_offset bootsector 0x0E 2
  let nFatTables := read_dec_offset bootsector 0x10 1
  let nSectorsFatTable := read_dec_offset bootsector 0x24 4
  { nBytesSector := nBytesSector
    nSectorsCluster := read_dec_offset bootsector 0x0D 1
    nSectorsBootsector := nSectorsBootsector
    nFatTables := nFatTables
    volumeSize := read_dec_offset bootsector 0x20 4
    nSectorsFatTable := nSectorsFatTable
    rdetClusterBegin := read_dec_offset bootsector 0x2C 4
    subSector := read_dec_offset bootsector 0x30 2
    nSectorsStoreBootsector := read_dec_offset bootsector 0x32 2
    fatData := read_sectors disk nSectorsBootsector nSectorsFatTable nBytesSector
    disk := disk }

/-- Models `FAT32.cluster_to_sectors`.  Sector indices are integers because the
Python expression `(cluster_n - 2) * self.n_sectors_cluster` can be negative
for cluster values 0 and 1. -/
def FAT32.cluster_to_sectors (v : FAT32Volume) (clusterN : Nat) : List Int :=
  let sectorBegin : Int :=
    (v.nSectorsBootsector : Int) + v.nFatTables * v.nSectorsFatTable +
      ((clusterN : Int) - 2) * v.nSectorsCluster
  (List.range v.nSectorsCluster).map (fun i => sectorBegin + i)

/-- The literal `eof_markers` set of `FAT32.sectors_chain`. -/
def eofMarkers : List Nat :=
  [0x00000000, 0xFFFFFF0, 0xFFFFFFF, 0xFFFFFF7, 0xFFFFFF8, 0xFFFFFFF0]

/-- Models one FAT lookup of `FAT32.sectors_chain`:
`raw_to_dec(self.fat_data[cluster_n*4 : cluster_n*4+4])`.  (A lookup past the
end of `fat_data` yields the empty slice, hence 0, exactly as in Python.) -/
def FAT32.fatEntry (v : FAT32Volume) (clusterN : Nat) : Nat :=
  raw_to_dec ((v.fatData.drop (clusterN * 4)).take 4)

/-- The `while` loop of `FAT32.sectors_chain`, indexed by fuel: `none` means
the loop has not reached an end-of-chain marker within `fuel` iterations (the
source loop would still be running). -/
def FAT32.sectors_chain_go (v : FAT32Volume) :
    Nat → Nat → List Int → Option (List Int)
  | 0, clusterN, acc => if clusterN ∈ eofMarkers then some acc else none
  | fuel + 1, clusterN, acc =>
    if clusterN ∈ eofMarkers then some acc
    else
      FAT32.sectors_chain_go v fuel (FAT32.fatEntry v clusterN)
        (acc ++ FAT32.cluster_to_sectors v clusterN)

/-- Models `FAT32.sectors_chain` (fuel-indexed). -/
def FAT32.sectors_chain (v : FAT32Volume) (clusterBegin : Nat) (fuel : Nat) :
    Option (List Int) :=
  FAT32.sectors_chain_go v fuel clusterBegin []

/-- The iterated FAT lookup: the cluster number held by the loop variable
`cluster_n` of `sectors_chain` at the start of iteration `k` (if the loop gets
that far). -/
def FAT32.fatIter (v : FAT32Volume) (c : Nat) : Nat → Nat
  | 0 => c
  | k + 1 => FAT32.fatEntry v (FAT32.fatIter v c k)

/-- A FAT32 directory-entry tuple as produced by `FAT32.read_entry` and
consumed by `read_directory` / `travel_to`.  The Python tuple holds
heterogeneous values, modelled as follows: `name` is a string (code points);
`e5` is `buffer[0:1].hex()`, modelled by the byte slice itself (the hex string
of one byte determines the byte, and the sentinel's empty string is the empty
slice); `clusterBegin` is `none` for the not-found sentinel whose field is the
empty string; `size` is an `Int` because the sentinel stores -1. -/
structure FatEntry where
  name : List Nat
  attr : Nat
  clusterBegin : Option Nat
  size : Int
  e5 : List Nat
  creationDate : Nat
  creationTime : Nat
  deriving Repr, DecidableEq

/-- Models `FAT32.read_entry` on a 32-byte (or shorter, trailing) record. -/
def FAT32.read_entry (buffer : List Nat) : FatEntry :=
  { name := stripCp (decodeUtf8 none (read_offset buffer 0 8))
    attr := read_dec_offset buffer 0xB 1
    clusterBegin := some (read_dec_offset buffer 0x1A 2)
    size := (read_dec_offset buffer 0x1C 4 : Int)
    e5 := read_offset buffer 0 1
    creationDate := read_dec_offset buffer 16 2
    creationTime := read_dec_offset buffer 14 2 }

/-- The 32-byte records scanned by the `for i in range(0, len(buffer), 32)`
loop of `FAT32.read_directory`: the slices `buffer[i:i+32]` (the final one may
be shorter).  Fuel (the buffer length at the top-level call) only drives the
structural recursion and is never exhausted. -/
def dirChunksGo : Nat → List Nat → List (List Nat)
  | 0, _ => []
  | _, [] => []
  | fuel + 1, b :: rest => (b :: rest).take 32 :: dirChunksGo fuel (rest.drop 31)

def dirChunks (buffer : List Nat) : List (List Nat) :=
  dirChunksGo buffer.length buffer

/-- The name-processing block of `FAT32.read_directory` for a non-LFN record:
if long-file-name fragments are buffered, the reconstructed long name replaces
the short one; otherwise the short name is lower-cased. -/
def FAT32.dirEntryName (subEntries : List (List Nat)) (ent : FatEntry) :
    FatEntry :=
  if subEntries ≠ [] then { ent with name := process_fat_lfn subEntries }
  else { ent with name := lowerCp ent.name }

/-- The record-scanning loop of `FAT32.read_directory`: `subEntries` is the
`sub_entries` buffer of long-file-name fragments (records are prepended to it
via `insert(0, ...)`), and the produced entries are returned in append
order.  A non-LFN record always consumes the buffered fragments; it is then
appended only when its first byte (`ent[4]`, the hex marker) is neither `'00'`
nor `'e5'`. -/
def FAT32.processDirChunks :
    List (List Nat) → List (List Nat) → List FatEntry
  | _, [] => []
  | subEntries, chunk :: rest =>
    let ent2 := FAT32.dirEntryName subEntries (FAT32.read_entry chunk)
    if (FAT32.read_entry chunk).attr ≠ 15 then
      if ent2.e5 ≠ [0x00] ∧ ent2.e5 ≠ [0xE5] then
        ent2 :: FAT32.processDirChunks [] rest
      else
        FAT32.processDirChunks [] rest
    else
      FAT32.processDirChunks (chunk :: subEntries) rest

/-- Models `FAT32.read_directory`: materialise the entry's cluster chain, skip
the first two 32-byte slots, and scan the records.  `none` means either that
the cluster chain did not terminate within `fuel` FAT steps, or that a read at
a negative sector index would have raised (both are non-results of the source
method). -/
def FAT32.read_directory (v : FAT32Volume) (entry : FatEntry) (fuel : Nat) :
    Option (List FatEntry) :=
  match entry.clusterBegin with
  | none => none
  | some c =>
    match FAT32.sectors_chain v c fuel with
    | none => none
    | some sectors =>
      match read_list_sectors v.disk sectors v.nBytesSector with
      | none => none
      | some buffer =>
        some (FAT32.processDirChunks [] (dirChunks (buffer.drop (32 * 2))))

/-- The pseudo-entry `['rdet', 0x10, self.rdet_cluster_begin, 0, '', 0, 0]`
used by `FAT32.travel_to` as the root of the descent. -/
def FAT32.rdetEntry (v : FAT32Volume) : FatEntry :=
  { name := [0x72, 0x64, 0x65, 0x74]
    attr := 0x10
    clusterBegin := some v.rdetClusterBegin
    size := 0
    e5 := []
    creationDate := 0
    creationTime := 0 }

/-- The sentinel `['', 0x04, '', -1, '', 0, 0]` returned by `FAT32.travel_to`
when a path segment is not found. -/
def notFoundEntry : FatEntry :=
  { name := []
    attr := 0x04
    clusterBegin := none
    size := -1
    e5 := []
    creationDate := 0
    creationTime := 0 }

/-- The per-segment scan of `FAT32.travel_to`: the `for ent in entries` loop
with the `found` flag keeps the first entry whose name equals the segment. -/
def FAT32.findSegment (d : List Nat) : List FatEntry → Option FatEntry
  | [] => none
  | ent :: rest => if d = ent.name then some ent else FAT32.findSegment d rest

/-- The `for directory in directories` loop of `FAT32.travel_to`, starting
from a given current entry.  The path has already been split on the
backslashes (`path.split('\\')`), so the argument is the list of segments. -/
def FAT32.travelFrom (v : FAT32Volume) (fuel : Nat) :
    FatEntry → List (List Nat) → Option FatEntry
  | entry, [] => some entry
  | entry, d :: ds =>
    match FAT32.read_directory v entry fuel with
    | none => none
    | some entries =>
      match FAT32.findSegment d entries with
      | some ent => FAT32.travelFrom v fuel ent ds
      | none => some notFoundEntry

/-- Models `FAT32.travel_to` on an already-split path: the empty segment list
models `not path` (and the literal path `'rdet'`), returning the root
pseudo-entry. -/
def FAT32.travel_to (v : FAT32Volume) (fuel : Nat) (segments : List (List Nat)) :
    Option FatEntry :=
  if segments = [] then some (FAT32.rdetEntry v)
  else FAT32.travelFrom v fuel (FAT32.rdetEntry v) segments

/-! ### The NTFS engine (class `NTFS`, src/NTFS.py) -/

/-- The byte string `NTFS_SIGNATURE = b'NTFS    '`. -/
def ntfsSignature : List Nat := [0x4E, 0x54, 0x46, 0x53, 0x20, 0x20, 0x20, 0x20]

/-- The byte string `b'FILE'` checked by `read_mft_record`. -/
def fileSignature : List Nat := [0x46, 0x49, 0x4C, 0x45]

/-- Models `struct.unpack('<b', data[64:65])[0]`: one byte read as a signed
8-bit integer. -/
def signedByte (b : Nat) : Int :=
  if b < 128 then (b : Int) else (b : Int) - 256

/-- The MFT record-size computation of `NTFS.read_boot_sector`:
`2 ** abs(raw) if raw < 0 else raw * 1024` where `raw` is the signed byte at
offset 64. -/
def mftRecordSizeOf (b : Nat) : Nat :=
  if signedByte b < 0 then 2 ^ (signedByte b).natAbs
  else (signedByte b).toNat * 1024

/-- The `NTFSBootSector` namedtuple of src/NTFS.py (`oem_id` kept as its ASCII
bytes, which the signature check pins to `'NTFS    '`). -/
structure NTFSBootSector where
  oemId : List Nat
  bytesPerSector : Nat
  sectorsPerCluster : Nat
  mftCluster : Nat
  mftMirrorCluster : Nat
  mftRecordSize : Nat
  volumeSerial : Nat
  checksum : Nat
  deriving Repr, DecidableEq

/-- Models `NTFS.read_boot_sector` on the 512 bytes read at the partition
offset: `none` models the `except` branch returning `False` (short read, bad
signature, or unsupported sector size). -/
def NTFS.read_boot_sector (data : List Nat) : Option NTFSBootSector :=
  if data.length < 512 then none
  else if read_offset data 3 8 ≠ ntfsSignature then none
  else if raw_to_dec (read_offset data 11 2) ≠ 512 ∧
      raw_to_dec (read_offset data 11 2) ≠ 4096 then none
  else
    some
        { oemId := read_offset data 3 8
          bytesPerSector := raw_to_dec (read_offset data 11 2)
          sectorsPerCluster := raw_to_dec (read_offset data 13 1)
          mftCluster := raw_to_dec (read_offset data 48 8)
          mftMirrorCluster := raw_to_dec (read_offset data 56 8)
          mftRecordSize := mftRecordSizeOf (read_dec_offset data 64 1)
          volumeSerial := raw_to_dec (read_offset data 72 8)
          checksum := raw_to_dec (read_offset data 80 4) }

/-- The state of an opened `NTFS` object after `read_boot_sector` succeeded:
the raw disk image, `self.partition_offset`, and `self.boot_sector`.
`self.bytes_per_cluster` is the product of the two boot-sector fields. -/
structure NTFSVol where
  disk : List Nat
  partitionOffset : Nat
  bootSector : NTFSBootSector
  deriving Repr, DecidableEq

def NTFSVol.bytesPerCluster (v : NTFSVol) : Nat :=
  v.bootSector.bytesPerSector * v.bootSector.sectorsPerCluster

/-- Models `NTFS.read_mft_record`: seek to
`partition_offset*512 + mft_cluster*bytes_per_cluster + n*record_size`, read
one record, and return `none` (Python `None`) when the read is short (< 42
bytes) or the `FILE` signature is absent. -/
def NTFS.read_mft_record (v : NTFSVol) (recordNumber : Nat) : Option (List Nat) :=
  let absoluteOffset :=
    v.partitionOffset * 512 + v.bootSector.mftCluster * v.bytesPerCluster +
      recordNumber * v.bootSector.mftRecordSize
  let recordData := (v.disk.drop absoluteOffset).take v.bootSector.mftRecordSize
  if recordData.length < 42 then none
  else if recordData.take 4 ≠ fileSignature then none
  else some recordData

/-- Microseconds from 1601-01-01 00:00:00 to Python's `datetime.max`
(9999-12-31 23:59:59.999999); beyond this, `datetime(1601,1,1) +
timedelta(microseconds=...)` raises `OverflowError`.  There are 3067671 days
from 1601-01-01 to 10000-01-01 in the proleptic Gregorian calendar. -/
def pyDatetimeMaxMicro : Nat := 3067671 * 86400000000 - 1

/-- Models `NTFS.parse_ntfs_time`.  The returned `datetime` is represented by
its exact offset from 1601-01-01 in microseconds (`datetime` arithmetic is
exact at microsecond resolution); `none` is Python `None`. -/
def NTFS.parse_ntfs_time (ntfsTime : Nat) : Option Nat :=
  if ntfsTime = 0 then none
  else if pyDatetimeMaxMicro < ntfsTime / 10 then none
  else some (ntfsTime / 10)

/-- A Python value that is either an `int` or a `str`: the type of
`entry.parent_ref` after `parse_attribute`, which starts as the 48-bit parent
record number and may be overwritten with a file name string. -/
abbrev IntOrStr : Type := Nat ⊕ List Nat

/-- The `NTFSFileEntry` class of src/NTFS.py.  Strings are code-point lists;
timestamps are microsecond offsets from 1601-01-01 (see `parse_ntfs_time`);
`createdTime`/`createdDate` model the `strftime` strings by the timestamp they
format; `attributes` holds the attribute type codes, which determine the name
strings the source appends (the `ATTRIBUTE_TYPES` naming is injective);
`recordNumber` is an `Int` because the class initialises it to -1. -/
structure NTFSFileEntry where
  name : Option (List Nat)
  usedSize : Nat
  size : Nat
  created : Option Nat
  createdTime : Option Nat
  createdDate : Option Nat
  modified : Option Nat
  accessed : Option Nat
  attributes : List Nat
  isDirectory : Bool
  parentRef : Option IntOrStr
  recordNumber : Int
  data : Option (List Nat)
  flag : Nat
  ID : Option Nat
  deriving Repr, DecidableEq

/-- The field values set by `NTFSFileEntry.__init__`. -/
def emptyNtfsEntry : NTFSFileEntry :=
  { name := none
    usedSize := 0
    size := 0
    created := none
    createdTime := none
    createdDate := none
    modified := none
    accessed := none
    attributes := []
    isDirectory := false
    parentRef := none
    recordNumber := -1
    data := none
    flag := 0
    ID := none }

/-- One step of the `for file in self.files` loop inside the File-Name branch
of `NTFS.parse_attribute`: while `parent_ref` is still an `int`, a file whose
`ID` equals it replaces it with that file's name; otherwise, if it equals 5,
it is replaced with the last path component of `self.disk_path` (`diskName`).
Once `parent_ref` is a string neither comparison can succeed again. -/
def resolveParentStep (diskName : List Nat) (p : IntOrStr) (f : NTFSFileEntry) :
    IntOrStr :=
  match p with
  | Sum.inl n =>
    if f.ID = some n then Sum.inr (f.name.getD [])
    else if n = 5 then Sum.inr diskName
    else Sum.inl n
  | Sum.inr s => Sum.inr s

/-- Models `bytes.decode('utf-16le', errors='replace')`: byte pairs become
code units, unpaired surrogates and a lone trailing byte become U+FFFD.  Fuel
(the unit-list length at the top-level call) only drives the structural
recursion and is never exhausted. -/
def combineSurrogatesReplaceGo : Nat → List Nat → List Nat
  | 0, _ => []
  | _, [] => []
  | fuel + 1, u :: rest =>
    if isHighSurrogate u then
      match rest with
      | [] => [0xFFFD]
      | l :: rest2 =>
        if isLowSurrogate l then
          (0x10000 + (u - 0xD800) * 0x400 + (l - 0xDC00)) ::
            combineSurrogatesReplaceGo fuel rest2
        else
          0xFFFD :: combineSurrogatesReplaceGo fuel (l :: rest2)
    else if isLowSurrogate u then 0xFFFD :: combineSurrogatesReplaceGo fuel rest
    else u :: combineSurrogatesReplaceGo fuel rest

def decodeUtf16leReplace (bs : List Nat) : List Nat :=
  combineSurrogatesReplaceGo (utf16leUnits bs).length (utf16leUnits bs) ++
    (if bs.length % 2 = 1 then [0xFFFD] else [])

/-- The closing lines of `NTFS.parse_attribute`: append the attribute's name
tag (modelled by its type code) unless already recorded. -/
def NTFS.recordAttrTag (attrType : Nat) (entry2 : NTFSFileEntry) :
    NTFSFileEntry :=
  if attrType ∈ entry2.attributes then entry2
  else { entry2 with attributes := entry2.attributes ++ [attrType] }

/-- Models `NTFS.parse_attribute` (src/NTFS.py).  `files` is `self.files` as
it stands when the attribute is parsed, `diskName` the last path component of
`self.disk_path`.  The method mutates `entry`; here the updated entry is
returned. -/
def NTFS.parse_attribute (files : List NTFSFileEntry) (diskName : List Nat)
    (entry : NTFSFileEntry) (attrType : Nat) (attrData : List Nat) :
    NTFSFileEntry :=
  let entry2 :=
    if attrType = 0x10 then
      if 48 ≤ attrData.length then
        let created := NTFS.parse_ntfs_time (raw_to_dec (read_offset attrData 24 8))
        { entry with
          created := created
          createdTime := created
          createdDate := created
          modified := NTFS.parse_ntfs_time (raw_to_dec (read_offset attrData 32 8))
          accessed := NTFS.parse_ntfs_time (raw_to_dec (read_offset attrData 40 8)) }
      else entry
    else if attrType = 0x30 then
      if 66 ≤ attrData.length then
        let parentRef0 : Nat := raw_to_dec (read_offset attrData 0 6)
        let parentRef := files.foldl (resolveParentStep diskName) (Sum.inl parentRef0)
        let flags := raw_to_dec (read_offset attrData 56 8)
        let nameLength := (read_offset attrData 64 1).headD 0
        if 66 + nameLength * 2 ≤ attrData.length then
          let nm := decodeUtf16leReplace (read_offset attrData 66 (nameLength * 2))
          { entry with
            name := if entry.name = none then some nm else entry.name
            parentRef := some parentRef
            isDirectory := decide (flags &&& 0x10000000 ≠ 0) }
        else entry
      else entry
    else if attrType = 0x80 then
      { entry with data := some (decodeUtf8 (some 0xFFFD) attrData) }
    else entry
  NTFS.recordAttrTag attrType entry2

/-- The attribute-walking `while` loop of `NTFS.parse_file_entry`.  The loop
advances `attr_offset` by `attr_length ≥ 1` each iteration, so fuel
`record_data.length + 1` (supplied by `parse_file_entry`) never runs out
before the loop's own exit conditions fire. -/
def NTFS.attrLoop (files : List NTFSFileEntry) (diskName : List Nat)
    (recordData : List Nat) : Nat → Nat → NTFSFileEntry → NTFSFileEntry
  | 0, _, entry => entry
  | fuel + 1, attrOffset, entry =>
    if attrOffset + 24 ≤ recordData.length then
      let attrType := raw_to_dec (read_offset recordData attrOffset 4)
      let attrLength := raw_to_dec (read_offset recordData (attrOffset + 4) 4)
      let contentLength := raw_to_dec (read_offset recordData (attrOffset + 16) 4)
      let contentOffset := raw_to_dec (read_offset recordData (attrOffset + 20) 2) + attrOffset
      if attrType = 0xFFFFFFFF ∨ attrLength = 0 then entry
      else if recordData.length < attrOffset + attrLength then entry
      else
        NTFS.attrLoop files diskName recordData fuel (attrOffset + attrLength)
          (NTFS.parse_attribute files diskName entry attrType
            (read_offset recordData contentOffset contentLength))
    else entry

/-- Models `NTFS.parse_file_entry`.  A record shorter than 48 bytes makes one
of the header `struct.unpack` calls raise, and the `except` branch returns
`None`; a record in which no File-Name attribute set a name also yields
`None` (`return entry if entry.name else None`). -/
def NTFS.parse_file_entry (files : List NTFSFileEntry) (diskName : List Nat)
    (recordData : List Nat) (recordNumber : Nat) : Option NTFSFileEntry :=
  if recordData.length < 48 then none
  else
    let entry0 :=
      { emptyNtfsEntry with
        recordNumber := (recordNumber : Int)
        flag := raw_to_dec (read_offset recordData 22 2)
        usedSize := raw_to_dec (read_offset recordData 32 4)
        size := raw_to_dec (read_offset recordData 40 4)
        ID := some (raw_to_dec (read_offset recordData 44 4)) }
    let attrOffset := raw_to_dec (read_offset recordData 20 2)
    let entry := NTFS.attrLoop files diskName recordData
      (recordData.length + 1) attrOffset entry0
    if entry.name = none then none else some entry

/-- Models `NTFS.get_total_mft_entries`:
`(mft_cluster * bytes_per_cluster) / mft_record_size` (Python floor division;
a zero record size raises `ZeroDivisionError`, caught to return 0 — Lean's
`Nat` division by zero likewise gives 0). -/
def NTFS.get_total_mft_entries (v : NTFSVol) : Nat :=
  v.bootSector.mftCluster * v.bytesPerCluster / v.bootSector.mftRecordSize

/-- The record loop of `NTFS.scan_files` over an explicit list of record
numbers, threading `self.files` (each parsed entry is appended and is visible
to the parent-reference resolution of later records). -/
def NTFS.scanFrom (v : NTFSVol) (diskName : List Nat)
    (files : List NTFSFileEntry) : List Nat → List NTFSFileEntry
  | [] => files
  | i :: rest =>
    match NTFS.read_mft_record v i with
    | none => NTFS.scanFrom v diskName files rest
    | some recordData =>
      match NTFS.parse_file_entry files diskName recordData i with
      | none => NTFS.scanFrom v diskName files rest
      | some entry => NTFS.scanFrom v diskName (files ++ [entry]) rest

/-- Models `NTFS.scan_files`: visit record numbers `0 .. total_entries - 1`,
silently skipping records that cannot be read or parsed, and collect the
parsed entries in `self.files`. -/
def NTFS.scan_files (v : NTFSVol) (diskName : List Nat) : List NTFSFileEntry :=
  NTFS.scanFrom v diskName [] (List.range (NTFS.get_total_mft_entries v))

/-- A concrete NTFS boot sector whose record-size byte (offset 64) is `0xF6`. -/
def c5BootData : List Nat :=
  List.replicate 3 0 ++ ntfsSignature ++ [0, 2] ++ [1] ++ List.replicate 50 0 ++
    [0xF6] ++ List.replicate 447 0

/-- A deliberately cyclic FAT: the entry for cluster 2 points to cluster 3 and
the entry for cluster 3 back to cluster 2, on a volume of 8 sectors. -/
def cyclicFatVolume : FAT32Volume :=
  { nBytesSector := 512
    nSectorsCluster := 1
    nSectorsBootsector := 0
    nFatTables := 0
    volumeSize := 8
    nSectorsFatTable := 0
    rdetClusterBegin := 2
    subSector := 0
    nSectorsStoreBootsector := 0
    fatData := [0, 0, 0, 0, 0, 0, 0, 0, 3, 0, 0, 0, 2, 0, 0, 0]
    disk := [] }

/-- A one-cluster well-formed chain: the FAT entry for cluster 2 is the
end-of-chain marker 0x0FFFFFFF. -/
def smallFatVolume : FAT32Volume :=
  { nBytesSector := 512
    nSectorsCluster := 1
    nSectorsBootsector := 0
    nFatTables := 0
    volumeSize := 8
    nSectorsFatTable := 0
    rdetClusterBegin := 2
    subSector := 0
    nSectorsStoreBootsector := 0
    fatData := [0, 0, 0, 0, 0, 0, 0, 0, 0xFF, 0xFF, 0xFF, 0x0F]
    disk := [] }

/-- The end-of-chain predicate stated by the spec: the fetched value 0, or any
value whose low 28 bits (after masking the top 4 reserved bits of the 32-bit
entry) are at least 0x0FFFFFF0. -/
def eofSpecMasked (c : Nat) : Prop :=
  c = 0 ∨ 0x0FFFFFF0 ≤ c % 0x10000000

instance (c : Nat) : Decidable (eofSpecMasked c) := by
  unfold eofSpecMasked
  infer_instance

/-- A FAT whose entry for cluster 2 is 0x0FFFFFF1 — a masked value inside
0x0FFFFFF0..0x0FFFFFFF that the spec says must stop the chain. -/
def maskFatVolume : FAT32Volume :=
  { nBytesSector := 512
    nSectorsCluster := 1
    nSectorsBootsector := 0
    nFatTables := 0
    volumeSize := 8
    nSectorsFatTable := 0
    rdetClusterBegin := 2
    subSector := 0
    nSectorsStoreBootsector := 0
    fatData := [0, 0, 0, 0, 0, 0, 0, 0, 0xF1, 0xFF, 0xFF, 0x0F]
    disk := [] }

/-- A 32-byte directory record whose first byte is 0x00 (all zero). -/
def zeroRecord : List Nat := List.replicate 32 0

/-- A live 8.3 record named `AB`, archive attribute, start cluster 5,
size 42. -/
def validRecB : List Nat :=
  [65, 66, 32, 32, 32, 32, 32, 32] ++ [0, 0, 0] ++ [0x20] ++
    List.replicate 14 0 ++ [5, 0] ++ [42, 0, 0, 0]

/-- A deleted record: first byte 0xE5, archive attribute. -/
def deletedRecE5 : List Nat :=
  0xE5 :: (List.replicate 10 0 ++ [0x20] ++ List.replicate 20 0)

/-- A one-cluster volume whose root directory consists of the two skipped
slots, then a 0x00 record, then a live record, then a deleted record. -/
def zeroSkipVolume : FAT32Volume :=
  { nBytesSector := 160
    nSectorsCluster := 1
    nSectorsBootsector := 0
    nFatTables := 0
    volumeSize := 8
    nSectorsFatTable := 0
    rdetClusterBegin := 2
    subSector := 0
    nSectorsStoreBootsector := 0
    fatData := [0, 0, 0, 0, 0, 0, 0, 0, 0xFF, 0xFF, 0xFF, 0x0F]
    disk := List.replicate 64 0 ++ zeroRecord ++ validRecB ++ deletedRecE5 }

/-- The entry produced for `validRecB` (name lower-cased to `ab`). -/
def entryB : FatEntry :=
  { name := [97, 98]
    attr := 32
    clusterBegin := some 5
    size := 42
    e5 := [65]
    creationDate := 0
    creationTime := 0 }

/-- The resolution relation implemented by the segment loop of
`FAT32.travel_to`: descend through the matched entry of each segment, and
produce the sentinel as soon as a segment has no match in the current
directory's listing. -/
inductive ResolvesFrom (v : FAT32Volume) (fuel : Nat) :
    FatEntry → List (List Nat) → FatEntry → Prop where
  | nil (e : FatEntry) : ResolvesFrom v fuel e [] e
  | found {e : FatEntry} {d : List Nat} {ds : List (List Nat)}
      {ents : List FatEntry} {e2 r : FatEntry} :
      FAT32.read_directory v e fuel = some ents →
      FAT32.findSegment d ents = some e2 →
      ResolvesFrom v fuel e2 ds r →
      ResolvesFrom v fuel e (d :: ds) r
  | missing {e : FatEntry} {d : List Nat} {ds : List (List Nat)}
      {ents : List FatEntry} :
      FAT32.read_directory v e fuel = some ents →
      FAT32.findSegment d ents = none →
      ResolvesFrom v fuel e (d :: ds) notFoundEntry

/-- A previously scanned directory entry named `dir` whose on-record ID field
is 7. -/
def dirFileEntry : NTFSFileEntry :=
  { emptyNtfsEntry with
    name := some [100, 105, 114]
    ID := some 7
    recordNumber := 7 }

/-- A 68-byte File-Name attribute content: parent reference low 48 bits = 7,
upper reference bytes 0xAB 0xCD (which must be ignored), name `A`. -/
def c7AttrData : List Nat :=
  [7, 0, 0, 0, 0, 0] ++ [0xAB, 0xCD] ++ List.replicate 48 0 ++
    List.replicate 8 0 ++ [1, 0] ++ [0x41, 0]

/-- A 268-byte MFT record: header with size field (bytes 40-43) = 0 and
attribute list at offset 48; a File-Name attribute (type 0x30, name `A`); a
*resident* Data attribute (type 0x80, residency flag byte 0 at offset 8 of the
attribute header) with declared content length 100; then the 0xFFFFFFFF
terminator. -/
def c1Record : List Nat :=
  (List.replicate 20 0 ++ [48, 0, 1, 0] ++ List.replicate 20 0 ++ [7, 0, 0, 0]) ++
  ([0x30, 0, 0, 0] ++ [92, 0, 0, 0] ++ List.replicate 8 0 ++ [68, 0, 0, 0] ++
    [24, 0] ++ [0, 0] ++
    ([5, 0, 0, 0, 0, 0, 0, 0] ++ List.replicate 48 0 ++ List.replicate 8 0 ++
      [1, 0] ++ [0x41, 0])) ++
  ([0x80, 0, 0, 0] ++ [124, 0, 0, 0] ++ List.replicate 8 0 ++ [100, 0, 0, 0] ++
    [24, 0] ++ [0, 0] ++ List.replicate 100 0x41) ++
  [0xFF, 0xFF, 0xFF, 0xFF]

/-- An NTFS volume state with an empty disk: every record read comes back
short. -/
def emptyNtfsVol : NTFSVol :=
  { disk := []
    partitionOffset := 0
    bootSector :=
      { oemId := ntfsSignature, bytesPerSector := 512, sectorsPerCluster := 1,
        mftCluster := 0, mftMirrorCluster := 0, mftRecordSize := 1024,
        volumeSerial := 0, checksum := 0 } }

/-- An NTFS volume whose single 48-byte record has the `FILE` signature but no
File-Name attribute, so it reads but does not parse. -/
def plainNtfsVol : NTFSVol :=
  { disk := fileSignature ++ List.replicate 44 0
    partitionOffset := 0
    bootSector :=
      { oemId := ntfsSignature, bytesPerSector := 512, sectorsPerCluster := 1,
        mftCluster := 0, mftMirrorCluster := 0, mftRecordSize := 48,
        volumeSerial := 0, checksum := 0 } }

/-- The two little-endian bytes of a UTF-16 code unit. -/
def unitBytes (u : Nat) : List Nat := [u % 256, u / 256]

/-- A 32-byte LFN record carrying the 13 code units of one chunk: sequence
byte, 5 units at offset 1, attribute 0x0F at offset 0xB, 6 units at offset
0xE, zero cluster field at 0x1A, 2 units at offset 0x1C. -/
def mkLfnEntry (seq : Nat) (us : List Nat) : List Nat :=
  match us with
  | [u0, u1, u2, u3, u4, u5, u6, u7, u8, u9, u10, u11, u12] =>
    seq :: (unitBytes u0 ++ unitBytes u1 ++ unitBytes u2 ++ unitBytes u3 ++
      unitBytes u4) ++ [0x0F, 0, 0] ++
      (unitBytes u5 ++ unitBytes u6 ++ unitBytes u7 ++ unitBytes u8 ++
        unitBytes u9 ++ unitBytes u10) ++ [0, 0] ++
      (unitBytes u11 ++ unitBytes u12)
  | _ => []

/-- Split a unit list into chunks of 13 (fuel-driven structural recursion;
fuel is the list length at the top-level call and is never exhausted). -/
def chunks13Go : Nat → List Nat → List (List Nat)
  | 0, _ => []
  | _, [] => []
  | fuel + 1, b :: rest => (b :: rest).take 13 :: chunks13Go fuel (rest.drop 12)

def chunks13 (l : List Nat) : List (List Nat) :=
  chunks13Go l.length l

/-- Pad a name to a whole number of 13-unit chunks: a name that does not fill
its last fragment is terminated by one NUL unit and then 0xFFFF filler. -/
def padLfnUnits (name : List Nat) : List Nat :=
  if name.length % 13 = 0 then name
  else name ++ 0 :: List.replicate (12 - name.length % 13) 0xFFFF

/-- Build the LFN records for the chunks with ascending sequence numbers. -/
def mkLfnEntriesGo (seq : Nat) : List (List Nat) → List (List Nat)
  | [] => []
  | c :: cs => mkLfnEntry seq c :: mkLfnEntriesGo (seq + 1) cs

def mkLfnEntries (name : List Nat) : List (List Nat) :=
  mkLfnEntriesGo 1 (chunks13 (padLfnUnits name))

/-- The records as they appear on disk: descending sequence order. -/
def writtenLfnEntries (name : List Nat) : List (List Nat) :=
  (mkLfnEntries name).reverse

/-- The `sub_entries` buffer built by `read_directory` while scanning the LFN
records in on-disk order: each record is prepended (`insert(0, ...)`). -/
def bufferLfn (entries : List (List Nat)) : List (List Nat) :=
  entries.foldl (fun acc e => e :: acc) []

/-! ## Claim C5: signed decoding of the MFT record-size byte -/

/-- Claim C5: the MFT record-size byte at offset 64 is decoded as a signed
8-bit integer `v`: if `v` is negative the record size is `2 ^ |v|` (for a byte
`b ≥ 128`, `|v| = 256 - b`), otherwise it is `v * 1024`; byte `0xF6` (signed
-10) yields 1024 via the power formula, and byte `0x01` yields 1024 via the
multiplication formula. -/
theorem mft_record_size_signed_decoding :
    (∀ b : Nat, b < 256 →
      mftRecordSizeOf b = if b < 128 then b * 1024 else 2 ^ (256 - b))
    ∧ signedByte 0xF6 = -10 ∧ mftRecordSizeOf 0xF6 = 2 ^ 10
    ∧ signedByte 0x01 = 1 ∧ mftRecordSizeOf 0x01 = 1 * 1024
    ∧ mftRecordSizeOf 0xF6 = 1024 ∧ mftRecordSizeOf 0x01 = 1024
    ∧ (∀ data bs, NTFS.read_boot_sector data = some bs →
        bs.mftRecordSize = mftRecordSizeOf (read_dec_offset data 64 1)) := by
  refine ⟨?_, by decide, by decide, by decide, by decide, by decide, by decide, ?_⟩
  · decide
  · intro data bs h
    unfold NTFS.read_boot_sector at h
    split at h
    · exact absurd h (by simp)
    · split at h
      · exact absurd h (by simp)
      · split at h
        · exact absurd h (by simp)
        · cases h
          rfl

/-- Witness for C5 at byte value 246 and at a concrete boot sector. -/
theorem mft_record_size_signed_decoding_witness :
    (mftRecordSizeOf 246 = if 246 < 128 then 246 * 1024 else 2 ^ (256 - 246))
    ∧ ({ oemId := ntfsSignature, bytesPerSector := 512, sectorsPerCluster := 1,
         mftCluster := 0, mftMirrorCluster := 0, mftRecordSize := 1024,
         volumeSerial := 0, checksum := 0 } : NTFSBootSector).mftRecordSize =
        mftRecordSizeOf (read_dec_offset c5BootData 64 1) :=
  ⟨mft_record_size_signed_decoding.1 246 (by decide),
   mft_record_size_signed_decoding.2.2.2.2.2.2.2 c5BootData _ (by decide)⟩

/-! ## Claim C10: NTFS timestamp conversion -/

/-- Claim C10: `parse_ntfs_time` returns no datetime exactly when the raw
value is 0 or 1601-01-01 plus `t / 10` microseconds overflows Python's
datetime range, and otherwise returns exactly 1601-01-01 plus `t / 10`
microseconds; a Standard-Information attribute whose three timestamp fields
are zero therefore leaves created/modified/accessed (and the derived
created-time/date strings) unset. -/
theorem parse_ntfs_time_spec :
    (∀ t : Nat, NTFS.parse_ntfs_time t = none ↔
      (t = 0 ∨ pyDatetimeMaxMicro < t / 10))
    ∧ (∀ t d : Nat, NTFS.parse_ntfs_time t = some d → d = t / 10)
    ∧ (∀ (files : List NTFSFileEntry) (diskName : List Nat)
        (entry : NTFSFileEntry) (attrData : List Nat),
        48 ≤ attrData.length →
        raw_to_dec (read_offset attrData 24 8) = 0 →
        raw_to_dec (read_offset attrData 32 8) = 0 →
        raw_to_dec (read_offset attrData 40 8) = 0 →
        (NTFS.parse_attribute files diskName entry 0x10 attrData).created = none ∧
        (NTFS.parse_attribute files diskName entry 0x10 attrData).modified = none ∧
        (NTFS.parse_attribute files diskName entry 0x10 attrData).accessed = none ∧
        (NTFS.parse_attribute files diskName entry 0x10 attrData).createdTime = none ∧
        (NTFS.parse_attribute files diskName entry 0x10 attrData).createdDate = none) := by
  refine ⟨?_, ?_, ?_⟩
  · intro t
    unfold NTFS.parse_ntfs_time
    split
    · simp_all
    · split <;> simp_all
  · intro t d h
    unfold NTFS.parse_ntfs_time at h
    split at h
    · cases h
    · split at h
      · cases h
      · cases h
        rfl
  · intro files diskName entry attrData hlen h24 h32 h40
    have hz : NTFS.parse_ntfs_time 0 = none := rfl
    by_cases hmem : (0x10 : Nat) ∈ entry.attributes <;>
      simp [NTFS.parse_attribute, NTFS.recordAttrTag, hlen, h24, h32, h40, hz, hmem]

/-- Witness for C10 at `t = 20` and at an all-zero 48-byte
Standard-Information attribute. -/
theorem parse_ntfs_time_spec_witness :
    ((2 : Nat) = 20 / 10)
    ∧ ((NTFS.parse_attribute ([]) ([]) emptyNtfsEntry 0x10
          (List.replicate 48 0)).created = none ∧
       (NTFS.parse_attribute ([]) ([]) emptyNtfsEntry 0x10
          (List.replicate 48 0)).modified = none ∧
       (NTFS.parse_attribute ([]) ([]) emptyNtfsEntry 0x10
          (List.replicate 48 0)).accessed = none ∧
       (NTFS.parse_attribute ([]) ([]) emptyNtfsEntry 0x10
          (List.replicate 48 0)).createdTime = none ∧
       (NTFS.parse_attribute ([]) ([]) emptyNtfsEntry 0x10
          (List.replicate 48 0)).createdDate = none) :=
  ⟨parse_ntfs_time_spec.2.1 20 2 (by decide),
   parse_ntfs_time_spec.2.2 [] [] emptyNtfsEntry (List.replicate 48 0)
     (by decide) (by decide) (by decide) (by decide)⟩

/-! ## Claims C2 and C3: termination and end-of-chain behaviour of
`sectors_chain` -/

lemma fatIter_succ_left (v : FAT32Volume) (c : Nat) :
    ∀ k, FAT32.fatIter v c (k + 1) = FAT32.fatIter v (FAT32.fatEntry v c) k := by
  intro k
  induction k with
  | zero => rfl
  | succ k ih =>
    show FAT32.fatEntry v (FAT32.fatIter v c (k + 1)) = _
    rw [ih]
    rfl

lemma flatMap_range_succ_shift (f : Nat → List Int) (k : Nat) :
    (List.range (k + 1)).flatMap f = f 0 ++ (List.range k).flatMap (fun i => f (i + 1)) := by
  rw [List.range_succ_eq_map, List.flatMap_cons, List.flatMap_map]

lemma sectors_chain_go_eq_none (v : FAT32Volume) :
    ∀ fuel c acc, FAT32.sectors_chain_go v fuel c acc = none ↔
      ∀ k, k ≤ fuel → FAT32.fatIter v c k ∉ eofMarkers := by
  intro fuel
  induction fuel with
  | zero =>
    intro c acc
    by_cases hc : c ∈ eofMarkers
    · simp only [FAT32.sectors_chain_go, if_pos hc]
      constructor
      · intro h; cases h
      · intro h
        exact absurd hc (h 0 le_rfl)
    · simp only [FAT32.sectors_chain_go, if_neg hc]
      constructor
      · intro _ k hk
        interval_cases k
        exact hc
      · intro _
        trivial
  | succ fuel ih =>
    intro c acc
    by_cases hc : c ∈ eofMarkers
    · simp only [FAT32.sectors_chain_go, if_pos hc]
      constructor
      · intro h; cases h
      · intro h
        exact absurd hc (h 0 (Nat.zero_le _))
    · simp only [FAT32.sectors_chain_go, if_neg hc]
      rw [ih]
      constructor
      · intro h k hk
        match k with
        | 0 => exact hc
        | k + 1 =>
          rw [fatIter_succ_left]
          exact h k (by omega)
      · intro h k hk
        rw [← fatIter_succ_left]
        exact h (k + 1) (by omega)

lemma sectors_chain_go_eq_some (v : FAT32Volume) :
    ∀ fuel c acc out, FAT32.sectors_chain_go v fuel c acc = some out →
      ∃ k, k ≤ fuel ∧ (∀ i, i < k → FAT32.fatIter v c i ∉ eofMarkers) ∧
        FAT32.fatIter v c k ∈ eofMarkers ∧
        out = acc ++ (List.range k).flatMap
          (fun i => FAT32.cluster_to_sectors v (FAT32.fatIter v c i)) := by
  intro fuel
  induction fuel with
  | zero =>
    intro c acc out h
    by_cases hc : c ∈ eofMarkers
    · simp only [FAT32.sectors_chain_go, if_pos hc, Option.some.injEq] at h
      exact ⟨0, le_rfl, by omega, hc, by simp [h.symm]⟩
    · simp only [FAT32.sectors_chain_go, if_neg hc] at h
      cases h
  | succ fuel ih =>
    intro c acc out h
    by_cases hc : c ∈ eofMarkers
    · simp only [FAT32.sectors_chain_go, if_pos hc, Option.some.injEq] at h
      exact ⟨0, Nat.zero_le _, by omega, hc, by simp [h.symm]⟩
    · simp only [FAT32.sectors_chain_go, if_neg hc] at h
      obtain ⟨k, hk, hni, hmem, hout⟩ := ih (FAT32.fatEntry v c) _ out h
      refine ⟨k + 1, by omega, ?_, ?_, ?_⟩
      · intro i hi
        match i with
        | 0 => exact hc
        | i + 1 =>
          rw [fatIter_succ_left]
          exact hni i (by omega)
      · rw [fatIter_succ_left]
        exact hmem
      · subst hout
        simp only [flatMap_range_succ_shift, fatIter_succ_left]
        simp [FAT32.fatIter, List.append_assoc]

lemma cyclicFatVolume_orbit :
    ∀ k, FAT32.fatIter cyclicFatVolume 2 k = 2 ∨ FAT32.fatIter cyclicFatVolume 2 k = 3 := by
  intro k
  induction k with
  | zero => left; rfl
  | succ k ih =>
    have hstep : FAT32.fatIter cyclicFatVolume 2 (k + 1) =
        FAT32.fatEntry cyclicFatVolume (FAT32.fatIter cyclicFatVolume 2 k) := rfl
    rw [hstep]
    rcases ih with h | h <;> rw [h]
    · right; decide
    · left; decide

/-- Counterexample to claim C2: on the cyclic FAT the traversal from cluster 2
is still running after 100 loop iterations — far beyond the volume's 8-sector
cluster count — with the loop variable back at cluster 2, which is not an
end-of-chain marker; no `CorruptChain` abort has occurred (the loop's only
exit is the end-of-chain test, and the code has no such abort at all). -/
theorem sectors_chain_cycle_no_abort :
    cyclicFatVolume.volumeSize = 8 ∧ (8 : Nat) < 100 ∧
    FAT32.sectors_chain cyclicFatVolume 2 100 = none ∧
    FAT32.fatIter cyclicFatVolume 2 100 = 2 ∧ (2 : Nat) ∉ eofMarkers := by
  refine ⟨rfl, by omega, ?_, by decide, by decide⟩
  rw [FAT32.sectors_chain, sectors_chain_go_eq_none]
  intro k _
  rcases cyclicFatVolume_orbit k with h | h <;> rw [h] <;> decide

/-- Amended claim C2: `sectors_chain` terminates exactly when the iterated FAT
lookup from the start cluster reaches one of the literal end-of-chain marker
values, and on termination the returned sector list is exactly the
concatenation of `cluster_to_sectors` over the orbit prefix (so on a
well-formed chain — one whose clusters before the marker are pairwise
distinct — no cluster is visited twice); there is no cycle protection: on the
cyclic FAT of `cyclicFatVolume` the loop runs out of any amount of fuel
instead of aborting with `CorruptChain`. -/
theorem sectors_chain_termination :
    (∀ v c fuel, FAT32.sectors_chain v c fuel = none ↔
      ∀ k, k ≤ fuel → FAT32.fatIter v c k ∉ eofMarkers)
    ∧ (∀ v c fuel out, FAT32.sectors_chain v c fuel = some out →
        ∃ k, k ≤ fuel ∧ (∀ i, i < k → FAT32.fatIter v c i ∉ eofMarkers) ∧
          FAT32.fatIter v c k ∈ eofMarkers ∧
          out = (List.range k).flatMap
            (fun i => FAT32.cluster_to_sectors v (FAT32.fatIter v c i)))
    ∧ (∀ fuel, FAT32.sectors_chain cyclicFatVolume 2 fuel = none) := by
  refine ⟨?_, ?_, ?_⟩
  · intro v c fuel
    exact sectors_chain_go_eq_none v fuel c []
  · intro v c fuel out h
    obtain ⟨k, hk, hni, hmem, hout⟩ := sectors_chain_go_eq_some v fuel c [] out h
    exact ⟨k, hk, hni, hmem, by simpa using hout⟩
  · intro fuel
    rw [FAT32.sectors_chain, sectors_chain_go_eq_none]
    intro k _
    rcases cyclicFatVolume_orbit k with h | h <;> rw [h] <;> decide

/-- Witness for the amended C2 on the concrete one-cluster chain. -/
theorem sectors_chain_termination_witness :
    ∃ k, k ≤ 5 ∧ (∀ i, i < k → FAT32.fatIter smallFatVolume 2 i ∉ eofMarkers) ∧
      FAT32.fatIter smallFatVolume 2 k ∈ eofMarkers ∧
      ([(0 : Int)] : List Int) = (List.range k).flatMap
        (fun i => FAT32.cluster_to_sectors smallFatVolume (FAT32.fatIter smallFatVolume 2 i)) :=
  sectors_chain_termination.2.1 smallFatVolume 2 5 [(0 : Int)] (by decide)

/-- Counterexample to claim C3: 0x0FFFFFF1 satisfies the spec's masked
end-of-chain predicate but is not in the code's marker set, and the chain from
cluster 2 of `maskFatVolume` does not stop at it: the loop appends the sectors
of "cluster" 0x0FFFFFF1 (sector 268435439) before stopping at the zero FAT
entry found past the end of the table. -/
theorem sectors_chain_no_masking :
    eofSpecMasked 0x0FFFFFF1 ∧ (0x0FFFFFF1 : Nat) ∉ eofMarkers ∧
    FAT32.sectors_chain maskFatVolume 2 10 = some [(0 : Int), (268435439 : Int)] := by
  refine ⟨by decide, by decide, by decide⟩

/-- Amended claim C3: a fetched value stops the chain exactly when it is one
of the six literal values 0x00000000, 0x0FFFFFF0, 0x0FFFFFF7, 0x0FFFFFF8,
0x0FFFFFFF, 0xFFFFFFF0 — no masking of the top four reserved bits is
performed; every one of the six literals does satisfy the spec's masked
predicate, but the converse fails (other masked values in
0x0FFFFFF0..0x0FFFFFFF do not stop the chain). -/
theorem sectors_chain_eof_literal :
    (∀ v : FAT32Volume, ∀ c : Nat,
      (FAT32.sectors_chain v c 0).isSome ↔ c ∈ eofMarkers)
    ∧ (∀ c ∈ eofMarkers, eofSpecMasked c) := by
  constructor
  · intro v c
    rw [FAT32.sectors_chain]
    show (if c ∈ eofMarkers then some [] else none).isSome ↔ _
    split <;> simp_all
  · decide

/-- Witness for the amended C3 at marker value 0x0FFFFFF8. -/
theorem sectors_chain_eof_literal_witness : eofSpecMasked 0x0FFFFFF8 :=
  sectors_chain_eof_literal.2 0x0FFFFFF8 (by decide)

/-! ## Claim C4: deleted-entry and end-marker handling in `read_directory` -/

/-- Counterexample to claim C4: in `zeroSkipVolume` the scanned buffer starts
with a record whose first byte is 0x00, yet enumeration does not stop there —
the later record `validRecB` still contributes `entryB` to the listing (while
the 0xE5 record is excluded). -/
theorem read_directory_zero_not_terminating :
    FAT32.read_directory zeroSkipVolume (FAT32.rdetEntry zeroSkipVolume) 5 =
      some [entryB] ∧
    zeroSkipVolume.disk.drop 64 = zeroRecord ++ validRecB ++ deletedRecE5 ∧
    zeroRecord.take 1 = [0x00] := by
  refine ⟨by decide, by decide, by decide⟩

/-- Amended claim C4: a non-LFN record whose first byte is 0xE5 is excluded
from the returned entry list, and a record whose first byte is 0x00 is
likewise merely excluded — it does not terminate enumeration, and later
records in the buffer still contribute entries. -/
theorem read_directory_marker_skipping :
    (∀ cs sub e, e ∈ FAT32.processDirChunks sub cs →
      e.e5 ≠ [0x00] ∧ e.e5 ≠ [0xE5])
    ∧ (∀ sub rest, FAT32.processDirChunks sub (zeroRecord :: rest) =
        FAT32.processDirChunks [] rest) := by
  have he5 : ∀ sub ent, (FAT32.dirEntryName sub ent).e5 = ent.e5 := by
    intro sub ent
    rw [FAT32.dirEntryName]
    split <;> rfl
  constructor
  · intro cs
    induction cs with
    | nil =>
      intro sub e h
      simp [FAT32.processDirChunks] at h
    | cons chunk rest ih =>
      intro sub e h
      simp only [FAT32.processDirChunks] at h
      split at h
      · split at h
        · rcases List.mem_cons.mp h with he | he
          · subst he
            rename_i hcond
            exact hcond
          · exact ih [] e he
        · exact ih [] e h
      · exact ih (chunk :: sub) e h
  · intro sub rest
    simp only [FAT32.processDirChunks]
    rw [if_pos (show (FAT32.read_entry zeroRecord).attr ≠ 15 by decide)]
    rw [if_neg]
    rw [he5]
    intro hcond
    exact hcond.1 (by decide)

/-- Witness for the amended C4: the single entry produced from a live record
carries a marker byte that is neither 0x00 nor 0xE5. -/
theorem read_directory_marker_skipping_witness :
    entryB.e5 ≠ [0x00] ∧ entryB.e5 ≠ [0xE5] :=
  read_directory_marker_skipping.1 [validRecB] [] entryB (by decide)

/-! ## Claim C6: path resolution and the not-found sentinel -/

lemma travelFrom_resolves (v : FAT32Volume) (fuel : Nat) :
    ∀ segs e r, FAT32.travelFrom v fuel e segs = some r ↔
      ResolvesFrom v fuel e segs r := by
  intro segs
  induction segs with
  | nil =>
    intro e r
    constructor
    · intro h
      cases h
      exact ResolvesFrom.nil e
    · intro h
      cases h
      rfl
  | cons d ds ih =>
    intro e r
    constructor
    · intro h
      simp only [FAT32.travelFrom] at h
      cases hrd : FAT32.read_directory v e fuel with
      | none => rw [hrd] at h; cases h
      | some ents =>
        rw [hrd] at h
        dsimp only at h
        cases hfs : FAT32.findSegment d ents with
        | none =>
          rw [hfs] at h
          cases h
          exact ResolvesFrom.missing hrd hfs
        | some e2 =>
          rw [hfs] at h
          exact ResolvesFrom.found hrd hfs ((ih e2 r).mp h)
    · intro h
      cases h with
      | found hrd hfs hrest =>
        simp only [FAT32.travelFrom]
        rw [hrd]
        dsimp only
        rw [hfs]
        exact (ih _ r).mpr hrest
      | missing hrd hfs =>
        simp only [FAT32.travelFrom]
        rw [hrd]
        dsimp only
        rw [hfs]

/-- Claim C6: the sentinel returned for a missing segment has size -1 (it is a
value, not an exception); `findSegment` (the per-segment scan) finds precisely
the first entry whose name equals the segment under case-sensitive equality,
and returns nothing exactly when no entry matches; and `travel_to` returns `r`
exactly when the resolution relation holds — descending through the matched
entry of every segment, or producing the sentinel at the first segment with no
match. -/
theorem travel_to_sentinel :
    notFoundEntry.size = -1
    ∧ (∀ (d : List Nat) (ents : List FatEntry) e2,
        FAT32.findSegment d ents = some e2 → e2 ∈ ents ∧ e2.name = d)
    ∧ (∀ (d : List Nat) (ents : List FatEntry),
        FAT32.findSegment d ents = none ↔ ∀ x ∈ ents, x.name ≠ d)
    ∧ (∀ v fuel e segs r, FAT32.travelFrom v fuel e segs = some r ↔
        ResolvesFrom v fuel e segs r)
    ∧ (∀ v fuel segs r, segs ≠ [] →
        (FAT32.travel_to v fuel segs = some r ↔
          ResolvesFrom v fuel (FAT32.rdetEntry v) segs r)) := by
  refine ⟨rfl, ?_, ?_, ?_, ?_⟩
  · intro d ents
    induction ents with
    | nil =>
      intro e2 h
      cases h
    | cons ent rest ih =>
      intro e2 h
      simp only [FAT32.findSegment] at h
      split at h
      · cases h
        rename_i hd
        exact ⟨List.mem_cons_self _ _, hd.symm⟩
      · obtain ⟨hm, hn⟩ := ih e2 h
        exact ⟨List.mem_cons_of_mem _ hm, hn⟩
  · intro d ents
    induction ents with
    | nil => simp [FAT32.findSegment]
    | cons ent rest ih =>
      simp only [FAT32.findSegment]
      split
      · rename_i hd
        constructor
        · intro h; cases h
        · intro h
          exact absurd hd.symm (h ent (List.mem_cons_self _ _))
      · rename_i hd
        rw [ih]
        constructor
        · intro h x hx
          rcases List.mem_cons.mp hx with hx | hx
          · subst hx
            exact fun hn => hd hn.symm
          · exact h x hx
        · intro h x hx
          exact h x (List.mem_cons_of_mem _ hx)
  · intro v fuel e segs r
    exact travelFrom_resolves v fuel segs e r
  · intro v fuel segs r hne
    rw [FAT32.travel_to, if_neg hne]
    exact travelFrom_resolves v fuel segs (FAT32.rdetEntry v) r

/-- Witness for C6: on the concrete volume, resolving the one-segment path
`ab` descends to `entryB`. -/
theorem travel_to_sentinel_witness :
    ResolvesFrom zeroSkipVolume 5 (FAT32.rdetEntry zeroSkipVolume)
      [[97, 98]] entryB :=
  (travel_to_sentinel.2.2.2.1 zeroSkipVolume 5 (FAT32.rdetEntry zeroSkipVolume)
    [[97, 98]] entryB).mp (by decide)

/-! ## Claim C7: the File-Name attribute's parent reference -/

/-- Counterexample to claim C7: parsing a File-Name attribute whose 48-bit
parent record number is 7 while `self.files` already holds a file with ID 7
stores that file's *name* in `parent_ref` — the reference does not remain a
record number awaiting a post-scan pass. -/
theorem parse_attribute_parent_replaced :
    raw_to_dec (read_offset c7AttrData 0 6) = 7 ∧
    (NTFS.parse_attribute ([dirFileEntry]) ([]) emptyNtfsEntry 0x30 c7AttrData).parentRef
      = some (Sum.inr [100, 105, 114]) ∧
    (NTFS.parse_attribute ([dirFileEntry]) ([]) emptyNtfsEntry 0x30 c7AttrData).parentRef
      ≠ some (Sum.inl 7) := by
  refine ⟨by decide, by decide, by decide⟩

lemma foldl_resolveParentStep_inr (diskName s : List Nat) :
    ∀ files : List NTFSFileEntry,
      files.foldl (resolveParentStep diskName) (Sum.inr s) = Sum.inr s := by
  intro files
  induction files with
  | nil => rfl
  | cons f rest ih => exact ih

lemma raw_to_dec_lt :
    ∀ l : List Nat, (∀ b ∈ l, b < 256) → raw_to_dec l < 256 ^ l.length := by
  intro l
  induction l with
  | nil =>
    intro _
    simp [raw_to_dec]
  | cons b rest ih =>
    intro hmem
    have hb0 : b < 256 := hmem b (List.mem_cons_self _ _)
    have hr : raw_to_dec rest < 256 ^ rest.length :=
      ih (fun x hx => hmem x (List.mem_cons_of_mem _ hx))
    show b + 256 * raw_to_dec rest < 256 ^ (rest.length + 1)
    calc b + 256 * raw_to_dec rest < 256 * (raw_to_dec rest + 1) := by omega
      _ ≤ 256 * 256 ^ rest.length := Nat.mul_le_mul_left 256 hr
      _ = 256 ^ (rest.length + 1) := by ring

lemma recordAttrTag_parentRef (t : Nat) (e : NTFSFileEntry) :
    (NTFS.recordAttrTag t e).parentRef = e.parentRef := by
  rw [NTFS.recordAttrTag]
  split <;> rfl

lemma recordAttrTag_size (t : Nat) (e : NTFSFileEntry) :
    (NTFS.recordAttrTag t e).size = e.size := by
  rw [NTFS.recordAttrTag]
  split <;> rfl

lemma recordAttrTag_name (t : Nat) (e : NTFSFileEntry) :
    (NTFS.recordAttrTag t e).name = e.name := by
  rw [NTFS.recordAttrTag]
  split <;> rfl

lemma recordAttrTag_recordNumber (t : Nat) (e : NTFSFileEntry) :
    (NTFS.recordAttrTag t e).recordNumber = e.recordNumber := by
  rw [NTFS.recordAttrTag]
  split <;> rfl

/-- Amended claim C7: the parent reference extracted by `parse_attribute` is
the value of the low 48 bits (bytes 0-5) of the 8-byte parent record
reference field, never the full 8 bytes; but it is resolved immediately,
during parsing, by folding over the files scanned so far: while still a
number, the first file whose on-record ID field equals it replaces it with
that file's name, and otherwise a value of 5 is replaced by the disk path's
last component; only when neither rule fires does it remain the 48-bit record
number.  (There is no post-scan pass, and matching is against the ID header
field, not against the scan index.) -/
theorem parse_attribute_parent_lowbits :
    (∀ ad : List Nat, (∀ b ∈ ad, b < 256) →
      raw_to_dec (read_offset ad 0 6) < 2 ^ 48)
    ∧ (∀ (files : List NTFSFileEntry) (diskName : List Nat)
        (entry : NTFSFileEntry) (ad : List Nat), 66 ≤ ad.length →
        66 + ((read_offset ad 64 1).headD 0) * 2 ≤ ad.length →
        (NTFS.parse_attribute files diskName entry 0x30 ad).parentRef =
          some (files.foldl (resolveParentStep diskName)
            (Sum.inl (raw_to_dec (read_offset ad 0 6)))))
    ∧ (∀ (files : List NTFSFileEntry) (diskName : List Nat) (p : Nat),
        (∀ f ∈ files, f.ID ≠ some p) → p ≠ 5 →
        files.foldl (resolveParentStep diskName) (Sum.inl p) = Sum.inl p)
    ∧ (∀ (f : NTFSFileEntry) (rest : List NTFSFileEntry)
        (diskName : List Nat) (p : Nat), f.ID = some p →
        (f :: rest).foldl (resolveParentStep diskName) (Sum.inl p) =
          Sum.inr (f.name.getD [])) := by
  refine ⟨?_, ?_, ?_, ?_⟩
  · intro ad hb
    have hlen : (read_offset ad 0 6).length ≤ 6 := by
      simp [read_offset]
    have hmem : ∀ b ∈ read_offset ad 0 6, b < 256 := by
      intro b hbm
      refine hb b ?_
      simp only [read_offset, List.drop_zero] at hbm
      exact List.take_subset 6 ad hbm
    calc raw_to_dec (read_offset ad 0 6) < 256 ^ (read_offset ad 0 6).length :=
          raw_to_dec_lt _ hmem
      _ ≤ 256 ^ 6 := Nat.pow_le_pow_right (by omega) hlen
      _ = 2 ^ 48 := by norm_num
  · intro files diskName entry ad h1 h2
    simp only [NTFS.parse_attribute, recordAttrTag_parentRef]
    rw [if_neg (by decide), if_pos True.intro, if_pos h1, if_pos h2]
  · intro files diskName p hno h5
    induction files with
    | nil => rfl
    | cons f rest ih =>
      have hstep : resolveParentStep diskName (Sum.inl p) f = Sum.inl p := by
        rw [resolveParentStep]
        rw [if_neg (hno f (List.mem_cons_self _ _)), if_neg h5]
      show List.foldl _ (resolveParentStep diskName (Sum.inl p) f) rest = _
      rw [hstep]
      exact ih (fun f hf => hno f (List.mem_cons_of_mem _ hf))
  · intro f rest diskName p hid
    show List.foldl _ (resolveParentStep diskName (Sum.inl p) f) rest = _
    rw [resolveParentStep, if_pos hid]
    exact foldl_resolveParentStep_inr diskName _ rest

/-- Witness for the amended C7 on the concrete attribute and file table. -/
theorem parse_attribute_parent_lowbits_witness :
    raw_to_dec (read_offset c7AttrData 0 6) < 2 ^ 48 ∧
    (NTFS.parse_attribute ([dirFileEntry]) ([]) emptyNtfsEntry 0x30 c7AttrData).parentRef =
      some ([dirFileEntry].foldl (resolveParentStep [])
        (Sum.inl (raw_to_dec (read_offset c7AttrData 0 6)))) :=
  ⟨parse_attribute_parent_lowbits.1 c7AttrData (by decide),
   parse_attribute_parent_lowbits.2.1 [dirFileEntry] [] emptyNtfsEntry c7AttrData
     (by decide) (by decide)⟩

/-! ## Claim C1: where an entry's size comes from -/

/-- Counterexample to claim C1: `c1Record` carries a resident Data attribute
of declared content length 100, yet the parsed entry's size is 0 — the value
of header bytes 40-43 — not 100.  The parser never reads the residency flag
byte or the Data attribute's length into the size. -/
theorem parse_file_entry_size_not_from_data :
    (NTFS.parse_file_entry [] [] c1Record 7).map NTFSFileEntry.size = some 0 ∧
    raw_to_dec (read_offset c1Record (140 + 16) 4) = 100 ∧
    read_offset c1Record (140 + 8) 1 = [0] ∧
    (NTFS.parse_file_entry [] [] c1Record 7).map NTFSFileEntry.attributes =
      some [0x30, 0x80] ∧
    (0 : Nat) ≠ 100 := by
  refine ⟨by decide, by decide, by decide, by decide, by decide⟩

lemma recordAttrTag_data (t : Nat) (e : NTFSFileEntry) :
    (NTFS.recordAttrTag t e).data = e.data := by
  rw [NTFS.recordAttrTag]
  split <;> rfl

lemma parse_attribute_size (files : List NTFSFileEntry) (diskName : List Nat)
    (e : NTFSFileEntry) (t : Nat) (a : List Nat) :
    (NTFS.parse_attribute files diskName e t a).size = e.size := by
  simp only [NTFS.parse_attribute, recordAttrTag_size]
  split_ifs <;> rfl

lemma attrLoop_size (files : List NTFSFileEntry) (diskName : List Nat)
    (recordData : List Nat) :
    ∀ fuel attrOffset e,
      (NTFS.attrLoop files diskName recordData fuel attrOffset e).size = e.size := by
  intro fuel
  induction fuel with
  | zero =>
    intro attrOffset e
    rfl
  | succ fuel ih =>
    intro attrOffset e
    simp only [NTFS.attrLoop]
    split
    · split
      · rfl
      · split
        · rfl
        · rw [ih, parse_attribute_size]
    · rfl

/-- Amended claim C1: for every record that `parse_file_entry` accepts, the
resulting entry's size is the 32-bit little-endian value of header bytes
40-43 of the MFT record — the Data (0x80) attribute never contributes to it
and no residency branch exists; parsing a Data attribute only stores the
(UTF-8-decoded) content slice in the entry's `data` field, leaving the size
unchanged. -/
theorem parse_file_entry_size_from_header :
    (∀ (files : List NTFSFileEntry) (diskName : List Nat)
      (recordData : List Nat) (n : Nat) (e : NTFSFileEntry),
      NTFS.parse_file_entry files diskName recordData n = some e →
      e.size = raw_to_dec (read_offset recordData 40 4))
    ∧ (∀ (files : List NTFSFileEntry) (diskName : List Nat)
        (e : NTFSFileEntry) (a : List Nat),
        (NTFS.parse_attribute files diskName e 0x80 a).data =
          some (decodeUtf8 (some 0xFFFD) a) ∧
        (NTFS.parse_attribute files diskName e 0x80 a).size = e.size) := by
  constructor
  · intro files diskName recordData n e h
    rw [NTFS.parse_file_entry] at h
    split at h
    · cases h
    · dsimp only at h
      split at h
      · cases h
      · cases h
        rw [attrLoop_size]
  · intro files diskName e a
    refine ⟨?_, parse_attribute_size files diskName e 0x80 a⟩
    simp only [NTFS.parse_attribute, recordAttrTag_data]
    rw [if_neg (by decide), if_neg (by decide), if_pos True.intro]

/-- Witness for the amended C1 on the concrete record `c1Record`. -/
theorem parse_file_entry_size_from_header_witness :
    ∃ e : NTFSFileEntry, NTFS.parse_file_entry [] [] c1Record 7 = some e ∧
      e.size = raw_to_dec (read_offset c1Record 40 4) := by
  refine ⟨(NTFS.parse_file_entry [] [] c1Record 7).getD emptyNtfsEntry, ?_, ?_⟩
  · decide
  · exact parse_file_entry_size_from_header.1 [] [] c1Record 7 _ (by decide)

/-! ## Claim C9: robustness of the whole-volume scan -/

lemma parse_attribute_name (files : List NTFSFileEntry) (dn : List Nat)
    (e : NTFSFileEntry) (t : Nat) (a : List Nat) :
    (NTFS.parse_attribute files dn e t a).name =
      if t = 0x30 ∧ 66 ≤ a.length ∧
          66 + ((read_offset a 64 1).headD 0) * 2 ≤ a.length ∧ e.name = none
      then some (decodeUtf16leReplace (read_offset a 66 (((read_offset a 64 1).headD 0) * 2)))
      else e.name := by
  simp only [NTFS.parse_attribute, recordAttrTag_name]
  split_ifs <;> first
    | rfl
    | (simp_all; try omega)

lemma parse_attribute_recordNumber (files : List NTFSFileEntry) (dn : List Nat)
    (e : NTFSFileEntry) (t : Nat) (a : List Nat) :
    (NTFS.parse_attribute files dn e t a).recordNumber = e.recordNumber := by
  simp only [NTFS.parse_attribute, recordAttrTag_recordNumber]
  split_ifs <;> rfl

lemma attrLoop_recordNumber (files : List NTFSFileEntry) (dn : List Nat)
    (recordData : List Nat) :
    ∀ fuel attrOffset e,
      (NTFS.attrLoop files dn recordData fuel attrOffset e).recordNumber =
        e.recordNumber := by
  intro fuel
  induction fuel with
  | zero =>
    intro attrOffset e
    rfl
  | succ fuel ih =>
    intro attrOffset e
    simp only [NTFS.attrLoop]
    split
    · split
      · rfl
      · split
        · rfl
        · rw [ih, parse_attribute_recordNumber]
    · rfl

lemma attrLoop_name_eq (files files2 : List NTFSFileEntry) (dn : List Nat)
    (recordData : List Nat) :
    ∀ fuel attrOffset (e e2 : NTFSFileEntry), e.name = e2.name →
      (NTFS.attrLoop files dn recordData fuel attrOffset e).name =
        (NTFS.attrLoop files2 dn recordData fuel attrOffset e2).name := by
  intro fuel
  induction fuel with
  | zero =>
    intro attrOffset e e2 hn
    exact hn
  | succ fuel ih =>
    intro attrOffset e e2 hn
    simp only [NTFS.attrLoop]
    split
    · split
      · exact hn
      · split
        · exact hn
        · refine ih _ _ _ ?_
          rw [parse_attribute_name, parse_attribute_name, hn]
    · exact hn

lemma parse_file_entry_isSome (files : List NTFSFileEntry) (dn : List Nat)
    (recordData : List Nat) (n : Nat) :
    (NTFS.parse_file_entry files dn recordData n).isSome =
      (NTFS.parse_file_entry [] dn recordData n).isSome := by
  simp only [NTFS.parse_file_entry]
  split
  · rfl
  · rw [attrLoop_name_eq files [] dn recordData (recordData.length + 1) _ _ _ rfl]
    split <;> rfl

lemma parse_file_entry_recordNumber (files : List NTFSFileEntry) (dn : List Nat)
    (recordData : List Nat) (n : Nat) (e : NTFSFileEntry)
    (h : NTFS.parse_file_entry files dn recordData n = some e) :
    e.recordNumber = (n : Int) := by
  rw [NTFS.parse_file_entry] at h
  split at h
  · cases h
  · dsimp only at h
    split at h
    · cases h
    · cases h
      rw [attrLoop_recordNumber]

lemma scanFrom_map_recordNumber (v : NTFSVol) (dn : List Nat) :
    ∀ (is : List Nat) (files : List NTFSFileEntry),
      (NTFS.scanFrom v dn files is).map NTFSFileEntry.recordNumber =
        files.map NTFSFileEntry.recordNumber ++
          (is.filter (fun i => ((NTFS.read_mft_record v i).bind
            (fun rd => NTFS.parse_file_entry [] dn rd i)).isSome)).map
            (fun i => (i : Int)) := by
  intro is
  induction is with
  | nil =>
    intro files
    simp [NTFS.scanFrom]
  | cons i rest ih =>
    intro files
    simp only [NTFS.scanFrom]
    cases hr : NTFS.read_mft_record v i with
    | none =>
      dsimp only
      rw [ih files, List.filter_cons]
      simp [hr]
    | some rd =>
      dsimp only
      cases hp : NTFS.parse_file_entry files dn rd i with
      | none =>
        have hps : (NTFS.parse_file_entry [] dn rd i).isSome = false := by
          rw [← parse_file_entry_isSome files, hp]
          rfl
        dsimp only
        rw [ih files, List.filter_cons]
        simp [hr, hps]
      | some e =>
        have hps : (NTFS.parse_file_entry [] dn rd i).isSome = true := by
          rw [← parse_file_entry_isSome files, hp]
          rfl
        have hrn : e.recordNumber = (i : Int) :=
          parse_file_entry_recordNumber files dn rd i e hp
        dsimp only
        rw [ih (files ++ [e]), List.filter_cons]
        simp [hr, hps, hrn]

/-- Claim C9: a single unreadable/unallocated/signature-less record, or one
whose attributes yield no name, never aborts the scan: deleting such a record
number from the visit list leaves the scan results unchanged (every other
record is still visited with the same accumulated state), and the scan's
output contains exactly one entry, tagged with its record number, for every
record number in range whose record reads and parses successfully. -/
theorem scan_files_robust :
    (∀ (v : NTFSVol) (diskName : List Nat) (files : List NTFSFileEntry)
      (pre post : List Nat) (j : Nat), NTFS.read_mft_record v j = none →
      NTFS.scanFrom v diskName files (pre ++ j :: post) =
        NTFS.scanFrom v diskName files (pre ++ post))
    ∧ (∀ (v : NTFSVol) (diskName : List Nat) (files : List NTFSFileEntry)
        (pre post : List Nat) (j : Nat) (rd : List Nat),
        NTFS.read_mft_record v j = some rd →
        NTFS.parse_file_entry [] diskName rd j = none →
        NTFS.scanFrom v diskName files (pre ++ j :: post) =
          NTFS.scanFrom v diskName files (pre ++ post))
    ∧ (∀ (v : NTFSVol) (diskName : List Nat),
        (NTFS.scan_files v diskName).map NTFSFileEntry.recordNumber =
          ((List.range (NTFS.get_total_mft_entries v)).filter (fun i =>
            ((NTFS.read_mft_record v i).bind
              (fun rd => NTFS.parse_file_entry [] diskName rd i)).isSome)).map
            (fun i => (i : Int))) := by
  refine ⟨?_, ?_, ?_⟩
  · intro v dn files pre post j hj
    induction pre generalizing files with
    | nil =>
      simp only [List.nil_append, NTFS.scanFrom, hj]
    | cons p ps ih =>
      simp only [List.cons_append, NTFS.scanFrom]
      cases hr : NTFS.read_mft_record v p with
      | none => exact ih files
      | some rd =>
        dsimp only
        cases hp : NTFS.parse_file_entry files dn rd p with
        | none => exact ih files
        | some e => exact ih (files ++ [e])
  · intro v dn files pre post j rd hj hpnone
    induction pre generalizing files with
    | nil =>
      have hpn : NTFS.parse_file_entry files dn rd j = none := by
        cases hpf : NTFS.parse_file_entry files dn rd j with
        | none => rfl
        | some e =>
          have := parse_file_entry_isSome files dn rd j
          rw [hpf, hpnone] at this
          cases this
      simp only [List.nil_append, NTFS.scanFrom, hj, hpn]
    | cons p ps ih =>
      simp only [List.cons_append, NTFS.scanFrom]
      cases hr : NTFS.read_mft_record v p with
      | none => exact ih files
      | some rd2 =>
        dsimp only
        cases hp : NTFS.parse_file_entry files dn rd2 p with
        | none => exact ih files
        | some e => exact ih (files ++ [e])
  · intro v dn
    rw [NTFS.scan_files, scanFrom_map_recordNumber]
    rfl

/-- Witness for C9: skipping an unreadable record (empty disk) and a
read-but-unparseable record (no File-Name attribute) at concrete volumes. -/
theorem scan_files_robust_witness :
    NTFS.scanFrom emptyNtfsVol [] [] ([] ++ 0 :: []) =
      NTFS.scanFrom emptyNtfsVol [] [] ([] ++ []) ∧
    NTFS.scanFrom plainNtfsVol [] [] ([] ++ 0 :: []) =
      NTFS.scanFrom plainNtfsVol [] [] ([] ++ []) :=
  ⟨scan_files_robust.1 emptyNtfsVol [] [] [] [] 0 (by decide),
   scan_files_robust.2.1 plainNtfsVol [] [] [] [] 0
     (fileSignature ++ List.replicate 44 0) (by decide) (by decide)⟩

/-! ## Claim C8: long-file-name round trip

The writer side of the round trip — how LFN fragments are laid out on disk —
is taken from the claim/spec: a name is split into 13-code-unit chunks, the
last chunk padded with one NUL unit and 0xFFFF filler, each chunk stored in a
32-byte record at byte offsets 1 (5 units), 0xE (6 units) and 0x1C (2 units),
and the records written in descending sequence order.  The reader side
(`process_fat_lfn` and the prepend-buffering of `read_directory`) is the
code's. -/

lemma foldl_cons_eq_reverse_append :
    ∀ (l acc : List (List Nat)),
      l.foldl (fun acc e => e :: acc) acc = l.reverse ++ acc := by
  intro l
  induction l with
  | nil => intro acc; simp
  | cons x xs ih =>
    intro acc
    simp only [List.foldl_cons, List.reverse_cons, ih]
    simp

lemma bufferLfn_eq_reverse (l : List (List Nat)) : bufferLfn l = l.reverse := by
  rw [bufferLfn, foldl_cons_eq_reverse_append]
  simp

lemma extract_mkLfnEntry (seq : Nat) :
    ∀ us : List Nat, us.length = 13 →
      read_offset (mkLfnEntry seq us) 1 10 ++
        read_offset (mkLfnEntry seq us) 0xE 12 ++
        read_offset (mkLfnEntry seq us) 0x1C 4 = us.flatMap unitBytes := by
  intro us h
  rcases us with _ | ⟨u0, us⟩; · simp at h
  rcases us with _ | ⟨u1, us⟩; · simp at h
  rcases us with _ | ⟨u2, us⟩; · simp at h
  rcases us with _ | ⟨u3, us⟩; · simp at h
  rcases us with _ | ⟨u4, us⟩; · simp at h
  rcases us with _ | ⟨u5, us⟩; · simp at h
  rcases us with _ | ⟨u6, us⟩; · simp at h
  rcases us with _ | ⟨u7, us⟩; · simp at h
  rcases us with _ | ⟨u8, us⟩; · simp at h
  rcases us with _ | ⟨u9, us⟩; · simp at h
  rcases us with _ | ⟨u10, us⟩; · simp at h
  rcases us with _ | ⟨u11, us⟩; · simp at h
  rcases us with _ | ⟨u12, us⟩; · simp at h
  rcases us with _ | ⟨u13, us⟩
  · rfl
  · simp at h

lemma mkLfnEntriesGo_flatMap :
    ∀ (cs : List (List Nat)) (seq : Nat), (∀ c ∈ cs, c.length = 13) →
      (mkLfnEntriesGo seq cs).flatMap
        (fun e => read_offset e 1 10 ++ read_offset e 0xE 12 ++
          read_offset e 0x1C 4) =
        cs.flatMap (fun c => c.flatMap unitBytes) := by
  intro cs
  induction cs with
  | nil => intro seq _; rfl
  | cons c cs ih =>
    intro seq hlen
    simp only [mkLfnEntriesGo, List.flatMap_cons]
    rw [extract_mkLfnEntry seq c (hlen c (List.mem_cons_self _ _)),
      ih (seq + 1) (fun x hx => hlen x (List.mem_cons_of_mem _ hx))]

lemma chunks13Go_join :
    ∀ (fuel : Nat) (l : List Nat), l.length ≤ fuel →
      (chunks13Go fuel l).flatMap id = l := by
  intro fuel
  induction fuel with
  | zero =>
    intro l hl
    have : l = [] := List.eq_nil_of_length_eq_zero (by omega)
    subst this
    rfl
  | succ fuel ih =>
    intro l hl
    cases l with
    | nil => rfl
    | cons b rest =>
      simp only [chunks13Go, List.flatMap_cons, id]
      rw [ih (rest.drop 12) (by simp only [List.length_drop]; simp at hl; omega)]
      have : rest.drop 12 = (b :: rest).drop 13 := rfl
      rw [this, List.take_append_drop]

lemma chunks13Go_length :
    ∀ (fuel : Nat) (l : List Nat), l.length ≤ fuel → 13 ∣ l.length →
      ∀ c ∈ chunks13Go fuel l, c.length = 13 := by
  intro fuel
  induction fuel with
  | zero =>
    intro l _ _ c hc
    simp [chunks13Go] at hc
  | succ fuel ih =>
    intro l hl hdvd c hc
    cases l with
    | nil => cases hc
    | cons b rest =>
      simp only [chunks13Go] at hc
      rcases List.mem_cons.mp hc with hc | hc
      · subst hc
        simp only [List.length_take, List.length_cons]
        have h13 : 13 ≤ rest.length + 1 := by
          rcases hdvd with ⟨k, hk⟩
          simp only [List.length_cons] at hk
          omega
        omega
      · refine ih (rest.drop 12) ?_ ?_ c hc
        · simp only [List.length_drop]
          simp at hl
          omega
        · rcases hdvd with ⟨k, hk⟩
          simp only [List.length_cons] at hk
          refine ⟨k - 1, ?_⟩
          simp only [List.length_drop]
          omega

lemma padLfnUnits_dvd (name : List Nat) : 13 ∣ (padLfnUnits name).length := by
  rw [padLfnUnits]
  split
  · rename_i h
    omega
  · rename_i h
    simp only [List.length_append, List.length_cons, List.length_replicate]
    omega

lemma flatMap_flatMap_unitBytes :
    ∀ cs : List (List Nat),
      cs.flatMap (fun c => c.flatMap unitBytes) =
        (cs.flatMap id).flatMap unitBytes := by
  intro cs
  induction cs with
  | nil => rfl
  | cons c cs ih =>
    simp only [List.flatMap_cons, id, List.flatMap_append, ih]

lemma utf16leUnits_flatMap :
    ∀ us : List Nat, (∀ u ∈ us, u < 65536) →
      utf16leUnits (us.flatMap unitBytes) = us := by
  intro us
  induction us with
  | nil => intro _; rfl
  | cons u rest ih =>
    intro hmem
    have hu : u < 65536 := hmem u (List.mem_cons_self _ _)
    show (u % 256 + 256 * (u / 256)) :: utf16leUnits (rest.flatMap unitBytes) = u :: rest
    rw [Nat.mod_add_div, ih (fun x hx => hmem x (List.mem_cons_of_mem _ hx))]

lemma combineSurrogatesGo_id :
    ∀ (fuel : Nat) (us : List Nat), us.length ≤ fuel →
      (∀ u ∈ us, isHighSurrogate u = false ∧ isLowSurrogate u = false) →
      combineSurrogatesGo fuel us = us := by
  intro fuel
  induction fuel with
  | zero =>
    intro us hl _
    have : us = [] := List.eq_nil_of_length_eq_zero (by omega)
    subst this
    rfl
  | succ fuel ih =>
    intro us hl hmem
    cases us with
    | nil => rfl
    | cons u rest =>
      obtain ⟨hh, hlow⟩ := hmem u (List.mem_cons_self _ _)
      simp only [combineSurrogatesGo, hh, hlow, Bool.false_eq_true, if_false]
      rw [ih rest (by simp at hl; omega)
        (fun x hx => hmem x (List.mem_cons_of_mem _ hx))]

lemma takeWhile_append_all (p : Nat → Bool) :
    ∀ l t : List Nat, (∀ x ∈ l, p x = true) →
      (l ++ t).takeWhile p = l ++ t.takeWhile p := by
  intro l
  induction l with
  | nil => intro t _; rfl
  | cons x xs ih =>
    intro t hmem
    have hx := hmem x (List.mem_cons_self _ _)
    simp [List.takeWhile_cons, hx,
      ih t (fun y hy => hmem y (List.mem_cons_of_mem _ hy))]

/-- Claim C8: writing a long name as LFN fragments in descending sequence
order (13 UTF-16 code units per fragment at the three fixed sub-entry
offsets, NUL-then-0xFFFF padding in the last fragment), buffering them by
prepending as `read_directory` does, and reconstructing with
`process_fat_lfn` — ascending-order concatenation, UTF-16 decoding, and
truncation at the first NUL — reproduces the original name exactly.  The name
is a list of nonzero, non-surrogate UTF-16 code units. -/
theorem lfn_roundtrip (name : List Nat)
    (hu : ∀ u ∈ name, u ≠ 0 ∧ u < 0x10000 ∧ ¬ (0xD800 ≤ u ∧ u ≤ 0xDFFF)) :
    process_fat_lfn (bufferLfn (writtenLfnEntries name)) = name := by
  rw [writtenLfnEntries, bufferLfn_eq_reverse, List.reverse_reverse]
  have hchunklen : ∀ c ∈ chunks13 (padLfnUnits name), c.length = 13 :=
    chunks13Go_length _ _ le_rfl (padLfnUnits_dvd name)
  have hpadmem : ∀ u ∈ padLfnUnits name,
      u < 65536 ∧ isHighSurrogate u = false ∧ isLowSurrogate u = false := by
    intro u humem
    rw [padLfnUnits] at humem
    split at humem
    · obtain ⟨h1, h2, h3⟩ := hu u humem
      refine ⟨h2, ?_, ?_⟩ <;> simp [isHighSurrogate, isLowSurrogate] <;> omega
    · rcases List.mem_append.mp humem with hm | hm
      · obtain ⟨h1, h2, h3⟩ := hu u hm
        refine ⟨h2, ?_, ?_⟩ <;> simp [isHighSurrogate, isLowSurrogate] <;> omega
      · rcases List.mem_cons.mp hm with hm | hm
        · subst hm
          refine ⟨by omega, by decide, by decide⟩
        · have : u = 0xFFFF := List.eq_of_mem_replicate hm
          subst this
          refine ⟨by omega, by decide, by decide⟩
  rw [process_fat_lfn]
  rw [mkLfnEntries, mkLfnEntriesGo_flatMap _ 1 hchunklen,
    flatMap_flatMap_unitBytes]
  rw [show (chunks13 (padLfnUnits name)).flatMap id = padLfnUnits name from
    chunks13Go_join _ _ le_rfl]
  rw [decodeUtf16leIgnore, utf16leUnits_flatMap _ (fun u hu2 => (hpadmem u hu2).1)]
  rw [combineSurrogates, combineSurrogatesGo_id _ _ le_rfl
    (fun u hu2 => ⟨(hpadmem u hu2).2.1, (hpadmem u hu2).2.2⟩)]
  rw [beforeFirstNul, padLfnUnits]
  split
  · have := takeWhile_append_all (fun c => decide (c ≠ 0)) name []
      (fun x hx => by simp [(hu x hx).1])
    simpa using this
  · rw [takeWhile_append_all _ name _
      (fun x hx => by simp [(hu x hx).1])]
    simp

/-- Witness for C8 at the concrete 14-unit name `hello_world.tx` (two
fragments, padded). -/
theorem lfn_roundtrip_witness :
    process_fat_lfn (bufferLfn (writtenLfnEntries
      [104, 101, 108, 108, 111, 95, 119, 111, 114, 108, 100, 46, 116, 120])) =
      [104, 101, 108, 108, 111, 95, 119, 111, 114, 108, 100, 46, 116, 120] :=
  lfn_roundtrip _ (by decide)

end DiskReader
